import Mathlib

/-!
Verification development for the `audiout` repository: a shallow embedding of
its selection engine (configuration resolution, choice-set building, cyclic
toggle, and interactive-pick result handling), together with theorems settling
the specification's claims.

Go strings are modelled by Lean `String`; Go's byte-wise lexicographic string
comparison coincides with the lexicographic order on the list of code points
(`String.data`) for well-formed UTF-8, so string comparison in the model is
the order on `.data`. External processes (filesystem read, YAML parse, the
`fzf` collaborator run) are modelled by passing their outcome as a parameter;
everything the repository's own code computes from those outcomes is
translated from the source.
-/

namespace Audiout

/-- `Choice` from the source: `RealName` is the device identifier used for
switching, `FriendlyName` the display label. -/
structure Choice where
  RealName : String
  FriendlyName : String
deriving DecidableEq

/-- `Config` from the source: a `friendly` map (modelled as an association
list with unique keys, looked up with `List.lookup`) and an `ignored` list. -/
structure Config where
  FriendlyNames : List (String × String)
  Ignored : List String
deriving DecidableEq

/-- `isIgnored` from the source: linear scan for an exact string match. -/
def isIgnored (name : String) (cfg : Config) : Bool :=
  cfg.Ignored.contains name

/-- `friendlyOf` from the source: the mapped value when present and non-empty,
otherwise the identifier itself. -/
def friendlyOf (real : String) (cfg : Config) : String :=
  match cfg.FriendlyNames.lookup real with
  | some f => if f ≠ "" then f else real
  | none => real

/-- `buildChoices` from the source: iterate the device list in order, skip
ignored devices, emit a `Choice` with the friendly label. -/
def buildChoices (devs : List String) (cfg : Config) : List Choice :=
  match devs with
  | [] => []
  | d :: rest =>
    if isIgnored d cfg then buildChoices rest cfg
    else { RealName := d, FriendlyName := friendlyOf d cfg } :: buildChoices rest cfg

/-- The comparison `sortedChoices[i].RealName < sortedChoices[j].RealName`
used by the source's `sort.Slice`, as the corresponding total order `≤` on
identifiers (Go byte order = code-point order on `.data`). -/
def chLE (a b : Choice) : Prop := a.RealName.data ≤ b.RealName.data

/-- The strict version of `chLE`. -/
def chLT (a b : Choice) : Prop := a.RealName.data < b.RealName.data

instance : DecidableRel chLE := fun a b =>
  inferInstanceAs (Decidable (a.RealName.data ≤ b.RealName.data))

instance : DecidableRel chLT := fun a b =>
  inferInstanceAs (Decidable (a.RealName.data < b.RealName.data))

instance : IsTotal Choice chLE := ⟨fun a b => le_total a.RealName.data b.RealName.data⟩

instance : IsTrans Choice chLE := ⟨fun _ _ _ h h2 => le_trans h h2⟩

instance : IsTrans Choice chLT := ⟨fun _ _ _ h h2 => lt_trans h h2⟩

instance : IsAntisymm Choice chLT :=
  ⟨fun _ _ h h2 => absurd h2 (not_lt_of_gt h)⟩

/-- The sorted copy of the choices produced at the top of `toggleNext`
(`sort.Slice` with less-than on `RealName`; the algorithm is modelled by
insertion sort, which agrees with any sort on distinct keys). -/
def sortChoices (l : List Choice) : List Choice :=
  l.insertionSort chLE

/-- `toggleNext` from the source: reject an empty choice list, sort a copy by
identifier, locate the current identifier (first match, `-1` when absent,
modelled by `findIdx?`), and select the next index modulo the length (index
`0` when the current identifier is absent). Always `selected = true`. -/
def toggleNext (choices : List Choice) (current : String) :
    Except String (Choice × Bool) :=
  if choices.length = 0 then .error "no choices available"
  else
    let sortedChoices := sortChoices choices
    let nextIdx : Nat :=
      match sortedChoices.findIdx? (fun c => c.RealName == current) with
      | none => 0
      | some i => (i + 1) % sortedChoices.length
    .ok (sortedChoices.getD nextIdx { RealName := "", FriendlyName := "" }, true)

/-- Iterated toggling: apply `toggleNext` `k` times, feeding the selected
identifier back as the current identifier each time. -/
def toggleSeq (choices : List Choice) (start : String) : Nat → Option String
  | 0 => some start
  | k + 1 =>
    match toggleSeq choices start k with
    | some cur =>
      match toggleNext choices cur with
      | .ok (c, _) => some c.RealName
      | .error _ => none
    | none => none

/-- Whitespace per Go's `unicode.IsSpace` on the Latin-1 range (the space
classes beyond Latin-1 are irrelevant to the claims). -/
def isSpace (c : Char) : Bool :=
  c = ' ' || c = '\t' || c = '\n' || c = '\x0b' || c = '\x0c' || c = '\r' ||
    c = '\x85' || c = '\xa0'

/-- `strings.TrimSpace`: drop whitespace from both ends. -/
def trimSpace (s : String) : String :=
  String.mk (((s.data.dropWhile isSpace).reverse.dropWhile isSpace).reverse)

/-- Split a character list at the first tab, when one exists. -/
def splitFirstTab : List Char → Option (List Char × List Char)
  | [] => none
  | c :: rest =>
    if c = '\t' then some ([], rest)
    else
      match splitFirstTab rest with
      | some (a, b) => some (c :: a, b)
      | none => none

/-- `strings.SplitN(line, "\t", 2)`: the whole line when no tab occurs,
otherwise the part before the first tab and everything after it. -/
def splitN2Tab (s : String) : List String :=
  match splitFirstTab s.data with
  | none => [s]
  | some (a, b) => [String.mk a, String.mk b]

/-- The cancellation state of the surrounding context when the collaborator
run finishes (`ctx.Err()`). -/
inductive CtxErr where
  | noErr
  | canceled
  | deadlineExceeded
deriving DecidableEq

/-- Outcome of running the external `fzf` collaborator: the error message of
`cmd.Run()` when it failed (`none` on success), captured stdout and stderr,
and the context's cancellation state. -/
structure FzfOutcome where
  exitErr : Option String
  stdout : String
  stderr : String
  ctxErr : CtxErr
deriving DecidableEq

/-- The stdin records fed to the collaborator: `FRIENDLY \t REAL`, one line
per choice. -/
def fzfInput (choices : List Choice) : String :=
  String.mk (choices.foldr
    (fun c acc => c.FriendlyName.data ++ '\t' :: c.RealName.data ++ '\n' :: acc) [])

/-- `fzfPick`'s handling of the collaborator outcome, from the source: a
failed run with empty stdout and no context error is a normal abort; a
deadline-exceeded context is a timeout error; any other failed run is an
error carrying the trimmed stderr. On success, the trimmed stdout line is
empty (abort) or split at the first tab into label and identifier; a line
that does not split into two parts is an error. (The Go `%q` quoting of the
offending line is elided from the error text.) -/
def fzfPickResult (out : FzfOutcome) : Except String (Choice × Bool) :=
  match out.exitErr with
  | some msg =>
    if out.stdout = "" ∧ out.ctxErr = CtxErr.noErr then
      .ok ({ RealName := "", FriendlyName := "" }, false)
    else if out.ctxErr = CtxErr.deadlineExceeded then
      .error "fzf timed out"
    else
      .error ("fzf error: " ++ msg ++ ": " ++ trimSpace out.stderr)
  | none =>
    if trimSpace out.stdout = "" then .ok ({ RealName := "", FriendlyName := "" }, false)
    else
      match splitN2Tab (trimSpace out.stdout) with
      | [l, r] => .ok ({ RealName := r, FriendlyName := l }, true)
      | _ => .error ("unexpected fzf line: " ++ trimSpace out.stdout)

/-- `fzfPick` from the source: serialize the choices for the collaborator's
stdin and process the collaborator's outcome. The result depends only on the
outcome; the choices only feed the external process. -/
def fzfPick (choices : List Choice) (out : FzfOutcome) :
    Except String (Choice × Bool) :=
  let _input := fzfInput choices
  fzfPickResult out

/-- `PickDevice` from the source: route to the cyclic toggle or to the
interactive collaborator according to the mode. -/
def PickDevice (choices : List Choice) (current : String) (toggleMode : Bool)
    (out : FzfOutcome) : Except String (Choice × Bool) :=
  if toggleMode then toggleNext choices current
  else fzfPick choices out

/-- Outcome of `os.ReadFile` on the configuration path. -/
inductive ReadResult where
  | notExist
  | otherErr (msg : String)
  | ok (contents : String)
deriving DecidableEq

/-- Outcome of `yaml.Unmarshal` on the file contents. -/
inductive ParseResult where
  | parseOk (c : Config)
  | parseErr (msg : String)
deriving DecidableEq

/-- The empty configuration (`&Config{...}` with empty map and list). -/
def emptyConfig : Config := { FriendlyNames := [], Ignored := [] }

/-- `loadConfig` from the source, over the filesystem-read outcome and the
YAML parser (both external): an absent file yields the empty configuration
with no error; any other read failure is an error with no configuration; an
unparsable document yields the empty configuration together with the parse
error; a parsed document is returned as is. The Go nil-map normalization has
no counterpart for the association-list model. The result pairs the returned
configuration (when non-nil) with the returned error (when non-nil). -/
def loadConfig (read : ReadResult) (parse : String → ParseResult) :
    Option Config × Option String :=
  match read with
  | .notExist => (some emptyConfig, none)
  | .otherErr msg => (none, some msg)
  | .ok contents =>
    match parse contents with
    | .parseErr msg => (some emptyConfig, some msg)
    | .parseOk c => (some c, none)

/-- `main`'s use of `loadConfig`: on any load error, log it and continue with
the empty configuration; selection always proceeds with some configuration. -/
def effectiveConfig (read : ReadResult) (parse : String → ParseResult) : Config :=
  match loadConfig read parse with
  | (_, some _) => emptyConfig
  | (some c, none) => c
  | (none, none) => emptyConfig

/-! ### Basic lemmas -/

lemma sortChoices_perm (l : List Choice) : (sortChoices l).Perm l :=
  List.perm_insertionSort chLE l

lemma sortChoices_sorted (l : List Choice) : List.Sorted chLE (sortChoices l) :=
  List.sorted_insertionSort chLE l

lemma sortChoices_length (l : List Choice) : (sortChoices l).length = l.length :=
  (sortChoices_perm l).length_eq

lemma buildChoices_eq (devs : List String) (cfg : Config) :
    buildChoices devs cfg =
      (devs.filter (fun d => !(isIgnored d cfg))).map
        (fun d => { RealName := d, FriendlyName := friendlyOf d cfg }) := by
  induction devs with
  | nil => rfl
  | cons d rest ih =>
    by_cases h : isIgnored d cfg <;> simp [buildChoices, h, ih, List.filter_cons]

lemma isIgnored_iff_mem (x : String) (cfg : Config) :
    isIgnored x cfg = true ↔ x ∈ cfg.Ignored := by
  simp [isIgnored]

/-! ### Claim theorems: choice-set building and the resolver -/

/-- C3: `buildChoices` removes exactly the ignored identifiers, keeps every
non-ignored input identifier exactly once as a `Choice` labelled by
`friendlyOf`, preserves the input's relative order, and does not deduplicate:
it is precisely the filter of the input by non-ignoredness, mapped to
labelled `Choice`s; in particular no produced `Choice` has an ignored
identifier. -/
theorem c3_buildChoices_filter_map (devs : List String) (cfg : Config) :
    buildChoices devs cfg =
      (devs.filter (fun d => !(isIgnored d cfg))).map
        (fun d => { RealName := d, FriendlyName := friendlyOf d cfg }) ∧
    (buildChoices devs cfg).map Choice.RealName =
      devs.filter (fun d => !(isIgnored d cfg)) ∧
    ∀ c ∈ buildChoices devs cfg,
      isIgnored c.RealName cfg = false ∧ c.FriendlyName = friendlyOf c.RealName cfg := by
  refine ⟨buildChoices_eq devs cfg, ?_, ?_⟩
  · rw [buildChoices_eq devs cfg, List.map_map]
    simp [Function.comp_def]
  · intro c hc
    rw [buildChoices_eq devs cfg] at hc
    rcases List.mem_map.mp hc with ⟨d, hd, hcd⟩
    rcases List.mem_filter.mp hd with ⟨_, hkeep⟩
    subst hcd
    exact ⟨by simpa using hkeep, rfl⟩

/-- Witness for C3 at the configuration example from the specification. -/
theorem c3_buildChoices_filter_map_witness :
    isIgnored
        (Choice.mk "UMC404HD 192k" "DAC").RealName
        { FriendlyNames := [("UMC404HD 192k", "DAC")], Ignored := ["ZoomAudioDevice"] } =
      false ∧
    (Choice.mk "UMC404HD 192k" "DAC").FriendlyName =
      friendlyOf (Choice.mk "UMC404HD 192k" "DAC").RealName
        { FriendlyNames := [("UMC404HD 192k", "DAC")], Ignored := ["ZoomAudioDevice"] } :=
  (c3_buildChoices_filter_map
      ["UMC404HD 192k", "ZoomAudioDevice", "MacBook Pro Speakers"]
      { FriendlyNames := [("UMC404HD 192k", "DAC")], Ignored := ["ZoomAudioDevice"] }).2.2
    (Choice.mk "UMC404HD 192k" "DAC") (by decide)

/-- C6: `friendlyOf` returns the mapped value exactly when the mapping exists
and is non-empty, and the identifier itself when the mapping is absent or
empty; `isIgnored` is exact string membership in the ignored list. -/
theorem c6_resolver (x : String) (cfg : Config) :
    (∀ f, cfg.FriendlyNames.lookup x = some f → f ≠ "" → friendlyOf x cfg = f) ∧
    (cfg.FriendlyNames.lookup x = none → friendlyOf x cfg = x) ∧
    (cfg.FriendlyNames.lookup x = some "" → friendlyOf x cfg = x) ∧
    (isIgnored x cfg = true ↔ x ∈ cfg.Ignored) := by
  refine ⟨?_, ?_, ?_, isIgnored_iff_mem x cfg⟩
  · intro f hf hne
    simp [friendlyOf, hf, hne]
  · intro hf
    simp [friendlyOf, hf]
  · intro hf
    simp [friendlyOf, hf]

/-- Witness for C6 at a concrete configuration. -/
theorem c6_resolver_witness :
    friendlyOf "UMC404HD 192k"
        { FriendlyNames := [("UMC404HD 192k", "DAC")], Ignored := ["ZoomAudioDevice"] } = "DAC" ∧
    (isIgnored "ZoomAudioDevice"
        { FriendlyNames := [("UMC404HD 192k", "DAC")], Ignored := ["ZoomAudioDevice"] } = true ↔
      "ZoomAudioDevice" ∈ ["ZoomAudioDevice"]) :=
  ⟨(c6_resolver "UMC404HD 192k" _).1 "DAC" (by decide) (by decide),
    (c6_resolver "ZoomAudioDevice" _).2.2.2⟩

/-! ### Claim theorems: configuration loading -/

/-- C9: an unparsable configuration document degrades to the empty
configuration with the parse failure reported as a (non-fatal) error, and the
effective configuration used by the program is the empty one, so selection
proceeds; an absent file yields the empty configuration with no error. -/
theorem c9_config_degrades (parse : String → ParseResult) :
    (∀ contents msg, parse contents = .parseErr msg →
      loadConfig (.ok contents) parse = (some emptyConfig, some msg) ∧
      effectiveConfig (.ok contents) parse = emptyConfig) ∧
    loadConfig .notExist parse = (some emptyConfig, none) ∧
    effectiveConfig .notExist parse = emptyConfig := by
  refine ⟨?_, rfl, rfl⟩
  intro contents msg hp
  constructor
  · simp [loadConfig, hp]
  · simp [effectiveConfig, loadConfig, hp]

/-- Witness for C9 with a concrete always-failing parser. -/
theorem c9_config_degrades_witness :
    loadConfig (.ok "friendly: [") (fun _ => .parseErr "yaml: line 1: did not find expected node content")
        = (some emptyConfig, some "yaml: line 1: did not find expected node content") ∧
    effectiveConfig (.ok "friendly: [")
        (fun _ => .parseErr "yaml: line 1: did not find expected node content") = emptyConfig :=
  (c9_config_degrades _).1 "friendly: [" _ rfl

/-! ### Lemmas on splitting and string emptiness -/

lemma string_eq_empty_iff (s : String) : s = "" ↔ s.data = [] := by
  constructor
  · intro h
    rw [h]
  · intro h
    exact String.toList_inj.mp h

lemma splitFirstTab_eq_none {cs : List Char} (h : '\t' ∉ cs) :
    splitFirstTab cs = none := by
  induction cs with
  | nil => rfl
  | cons c rest ih =>
    have hc : ¬ c = '\t' := fun hh => h (hh ▸ List.mem_cons_self c rest)
    have hrest : '\t' ∉ rest := fun hm => h (List.mem_cons_of_mem _ hm)
    simp [splitFirstTab, hc, ih hrest]

lemma splitFirstTab_append {L R : List Char} (h : '\t' ∉ L) :
    splitFirstTab (L ++ '\t' :: R) = some (L, R) := by
  induction L with
  | nil => simp [splitFirstTab]
  | cons c rest ih =>
    have hc : ¬ c = '\t' := fun hh => h (hh ▸ List.mem_cons_self c rest)
    have hrest : '\t' ∉ rest := fun hm => h (List.mem_cons_of_mem _ hm)
    simp [splitFirstTab, hc, ih hrest]

lemma fzfPickResult_parse {stdout stderr : String} {ctx : CtxErr}
    {L R : List Char} (hL : '\t' ∉ L)
    (hline : (trimSpace stdout).data = L ++ '\t' :: R) :
    fzfPickResult ⟨none, stdout, stderr, ctx⟩ =
      .ok ({ RealName := String.mk R, FriendlyName := String.mk L }, true) := by
  have hne : ¬ trimSpace stdout = "" := by
    intro h
    rw [string_eq_empty_iff] at h
    rw [h] at hline
    cases L <;> simp at hline
  have hsplit : splitN2Tab (trimSpace stdout) = [String.mk L, String.mk R] := by
    unfold splitN2Tab
    rw [hline, splitFirstTab_append hL]
  simp only [fzfPickResult]
  rw [if_neg hne, hsplit]

lemma fzfPickResult_malformed {stdout stderr : String} {ctx : CtxErr}
    (hne : trimSpace stdout ≠ "") (hnotab : '\t' ∉ (trimSpace stdout).data) :
    fzfPickResult ⟨none, stdout, stderr, ctx⟩ =
      .error ("unexpected fzf line: " ++ trimSpace stdout) := by
  have hsplit : splitN2Tab (trimSpace stdout) = [trimSpace stdout] := by
    unfold splitN2Tab
    rw [splitFirstTab_eq_none hnotab]
  simp only [fzfPickResult]
  rw [if_neg hne, hsplit]

/-! ### Claim theorems: empty choice set (C2) -/

/-- C2 counterexample: in Interactive mode with an empty choice set, a
collaborator run that exits nonzero with empty output and no cancellation
yields `(zero Choice, false)` with no error, so the engine does not fail with
a `NoChoicesError` regardless of mode. -/
theorem c2_empty_choices_counterexample :
    PickDevice [] "cur" false
        { exitErr := some "exit status 1", stdout := "", stderr := "",
          ctxErr := CtxErr.noErr } =
      .ok ({ RealName := "", FriendlyName := "" }, false) := rfl

/-- C2 amended: only the CyclicToggle path re-validates the choice set — with
empty choices it fails with the no-choices error for every current identifier
and collaborator outcome; the interactive path performs no such validation,
and with empty choices an aborting collaborator outcome (nonzero exit, empty
output, no cancellation) yields `(zero Choice, false)` without error. -/
theorem c2_empty_choices_amended :
    (∀ (current : String) (out : FzfOutcome),
      PickDevice [] current true out = .error "no choices available") ∧
    (∀ (current msg : String),
      PickDevice [] current false
          { exitErr := some msg, stdout := "", stderr := "", ctxErr := CtxErr.noErr } =
        .ok ({ RealName := "", FriendlyName := "" }, false)) :=
  ⟨fun _ _ => rfl, fun _ _ => rfl⟩

/-! ### Claim theorems: interactive result handling (C7, C8, C10) -/

/-- C7: on a successful collaborator run whose returned (trimmed, non-empty)
line contains no tab separator, the engine fails with the malformed-selection
error; when the line splits into a tab-free label and an identifier part, the
engine returns that `Choice` with `selected = true`, the identifier part
(not the label) populating the identifier field. -/
theorem c7_interactive_parse (choices : List Choice) (stdout stderr : String)
    (ctx : CtxErr) :
    (trimSpace stdout ≠ "" → '\t' ∉ (trimSpace stdout).data →
      fzfPick choices
          { exitErr := none, stdout := stdout, stderr := stderr, ctxErr := ctx } =
        .error ("unexpected fzf line: " ++ trimSpace stdout)) ∧
    (∀ L R : List Char, '\t' ∉ L → (trimSpace stdout).data = L ++ '\t' :: R →
      fzfPick choices
          { exitErr := none, stdout := stdout, stderr := stderr, ctxErr := ctx } =
        .ok ({ RealName := String.mk R, FriendlyName := String.mk L }, true)) :=
  ⟨fun hne hnotab => fzfPickResult_malformed hne hnotab,
    fun _ _ hL hline => fzfPickResult_parse hL hline⟩

/-- Witness for C7: the spec's round-trip example, plus a malformed line. -/
theorem c7_interactive_parse_witness :
    fzfPick
        [{ RealName := "UMC404HD 192k", FriendlyName := "DAC" },
         { RealName := "MacBook Pro Speakers", FriendlyName := "Laptop speakers" }]
        { exitErr := none, stdout := "DAC\tUMC404HD 192k", stderr := "",
          ctxErr := CtxErr.noErr } =
      .ok ({ RealName := String.mk "UMC404HD 192k".data,
             FriendlyName := String.mk "DAC".data }, true) ∧
    fzfPick
        [{ RealName := "UMC404HD 192k", FriendlyName := "DAC" }]
        { exitErr := none, stdout := "DAC", stderr := "", ctxErr := CtxErr.noErr } =
      .error ("unexpected fzf line: " ++ trimSpace "DAC") :=
  ⟨(c7_interactive_parse _ "DAC\tUMC404HD 192k" "" CtxErr.noErr).2
      "DAC".data "UMC404HD 192k".data (by decide) (by decide),
    (c7_interactive_parse _ "DAC" "" CtxErr.noErr).1 (by decide) (by decide)⟩

/-- C8 counterexample: after a timeout, the engine's error is the fixed text
`fzf timed out`, which does not carry the collaborator's diagnostic output
(`boom` on stderr), contradicting the claim that a timeout yields an error
carrying the diagnostic text. -/
theorem c8_abort_counterexample :
    fzfPickResult
        { exitErr := some "exit status 130", stdout := "", stderr := "boom",
          ctxErr := CtxErr.deadlineExceeded } = .error "fzf timed out" ∧
    ¬ ("boom".data <:+: "fzf timed out".data) :=
  ⟨rfl, by decide⟩

/-- C8 amended: a collaborator exit with empty selection output and no
cancellation or timeout in effect yields `(zero Choice, false)` with no error
(for failed runs, and likewise for successful runs with empty output); a
timeout yields the fixed error `fzf timed out`, without the diagnostic text;
a failed run with non-empty selection output and no cancellation yields an
error carrying the collaborator's trimmed stderr diagnostic. -/
theorem c8_abort_vs_failure :
    (∀ msg stderr : String,
      fzfPickResult
          { exitErr := some msg, stdout := "", stderr := stderr,
            ctxErr := CtxErr.noErr } =
        .ok ({ RealName := "", FriendlyName := "" }, false)) ∧
    (∀ (stderr : String) (ctx : CtxErr),
      fzfPickResult
          { exitErr := none, stdout := "", stderr := stderr, ctxErr := ctx } =
        .ok ({ RealName := "", FriendlyName := "" }, false)) ∧
    (∀ msg stdout stderr : String,
      fzfPickResult
          { exitErr := some msg, stdout := stdout, stderr := stderr,
            ctxErr := CtxErr.deadlineExceeded } = .error "fzf timed out") ∧
    (∀ msg stdout stderr : String, stdout ≠ "" →
      fzfPickResult
          { exitErr := some msg, stdout := stdout, stderr := stderr,
            ctxErr := CtxErr.noErr } =
        .error ("fzf error: " ++ msg ++ ": " ++ trimSpace stderr)) := by
  refine ⟨fun msg stderr => rfl, fun stderr ctx => rfl, ?_, ?_⟩
  · intro msg stdout stderr
    simp [fzfPickResult]
  · intro msg stdout stderr hne
    simp [fzfPickResult, hne]

/-- Witness for C8 amended at concrete collaborator outcomes. -/
theorem c8_abort_vs_failure_witness :
    fzfPickResult
        { exitErr := some "exit status 130", stdout := "", stderr := "",
          ctxErr := CtxErr.noErr } =
      .ok ({ RealName := "", FriendlyName := "" }, false) ∧
    fzfPickResult
        { exitErr := some "exit status 2", stdout := "x", stderr := " oops ",
          ctxErr := CtxErr.noErr } =
      .error ("fzf error: " ++ "exit status 2" ++ ": " ++ trimSpace " oops ") :=
  ⟨c8_abort_vs_failure.1 "exit status 130" "",
    c8_abort_vs_failure.2.2.2 "exit status 2" "x" " oops " (by decide)⟩

/-- C10: the interactive path never validates the parsed line against the
offered choice set — for every choice set, a well-formed collaborator line
yields the parsed `Choice` with `selected = true` even when its identifier
belongs to no offered `Choice`. -/
theorem c10_no_validation (choices : List Choice) (stdout stderr : String)
    (ctx : CtxErr) (L R : List Char) (hL : '\t' ∉ L)
    (hline : (trimSpace stdout).data = L ++ '\t' :: R)
    (_houtside : ∀ c ∈ choices, c.RealName ≠ String.mk R) :
    fzfPick choices
        { exitErr := none, stdout := stdout, stderr := stderr, ctxErr := ctx } =
      .ok ({ RealName := String.mk R, FriendlyName := String.mk L }, true) :=
  fzfPickResult_parse hL hline

/-- Witness for C10: a fabricated line whose identifier is outside the set. -/
theorem c10_no_validation_witness :
    fzfPick [{ RealName := "MacBook Pro Speakers", FriendlyName := "Laptop speakers" }]
        { exitErr := none, stdout := "DAC\tGhost Device", stderr := "",
          ctxErr := CtxErr.noErr } =
      .ok ({ RealName := String.mk "Ghost Device".data,
             FriendlyName := String.mk "DAC".data }, true) :=
  c10_no_validation _ "DAC\tGhost Device" "" CtxErr.noErr
    "DAC".data "Ghost Device".data (by decide) (by decide) (by decide)

/-! ### Lemmas on the cyclic toggle -/

lemma toggleNext_eq (l : List Choice) (current : String) (hne : ¬ l.length = 0) :
    toggleNext l current =
      .ok ((sortChoices l).getD
        (match (sortChoices l).findIdx? (fun c => c.RealName == current) with
          | none => 0
          | some i => (i + 1) % (sortChoices l).length)
        { RealName := "", FriendlyName := "" }, true) := by
  simp only [toggleNext, if_neg hne]

lemma sortChoices_map_nodup {l : List Choice}
    (hnd : (l.map Choice.RealName).Nodup) :
    ((sortChoices l).map Choice.RealName).Nodup :=
  (((sortChoices_perm l).map Choice.RealName).symm).nodup hnd

lemma sortChoices_sorted_lt {l : List Choice}
    (hnd : (l.map Choice.RealName).Nodup) :
    List.Sorted chLT (sortChoices l) := by
  have hle := sortChoices_sorted l
  have hnep : (sortChoices l).Pairwise (fun a b => a.RealName ≠ b.RealName) :=
    List.pairwise_map.mp (sortChoices_map_nodup hnd)
  exact (hle.and hnep).imp
    (fun hab => lt_of_le_of_ne hab.1 (fun hdeq => hab.2 (String.toList_inj.mp hdeq)))

/-! ### Claim theorems: cyclic toggle fallback (C5) -/

/-- C5: with a non-empty choice set and a current identifier matching no
choice, the toggle selects a choice from the set whose identifier is
lexicographically smallest, with `selected = true`. -/
theorem c5_toggle_fallback_first (l : List Choice) (hne : l ≠ [])
    (current : String) (habs : current ∉ l.map Choice.RealName) :
    ∃ c, toggleNext l current = .ok (c, true) ∧ c ∈ l ∧
      ∀ d ∈ l, c.RealName.data ≤ d.RealName.data := by
  have hlen : ¬ l.length = 0 := by
    simpa [List.length_eq_zero] using hne
  have hpos : 0 < (sortChoices l).length := by
    rw [sortChoices_length]
    exact Nat.pos_of_ne_zero hlen
  have hnone : (sortChoices l).findIdx? (fun c => c.RealName == current) = none := by
    rw [List.findIdx?_eq_none_iff]
    intro c hc
    have hcl : c ∈ l := (sortChoices_perm l).subset hc
    have : c.RealName ≠ current := by
      intro h
      exact habs (h ▸ List.mem_map_of_mem Choice.RealName hcl)
    simpa using this
  rw [toggleNext_eq l current hlen, hnone]
  refine ⟨(sortChoices l).get ⟨0, hpos⟩, ?_, ?_, ?_⟩
  · rw [List.getD_eq_get _ _ hpos]
  · exact (sortChoices_perm l).subset (List.get_mem _ _ _)
  · intro d hd
    have hds : d ∈ sortChoices l := (sortChoices_perm l).symm.subset hd
    rcases List.get_of_mem hds with ⟨⟨j, hj⟩, hdj⟩
    rcases Nat.eq_zero_or_pos j with hj0 | hjpos
    · subst hj0
      rw [← hdj]
    · have := (sortChoices_sorted l).rel_get_of_lt
        (a := ⟨0, hpos⟩) (b := ⟨j, hj⟩) (by simpa using hjpos)
      rw [← hdj]
      exact this

/-- Witness for C5: a current identifier outside the set selects the
alphabetically first choice. -/
theorem c5_toggle_fallback_first_witness :
    ∃ c, toggleNext
        [{ RealName := "b", FriendlyName := "B" },
         { RealName := "a", FriendlyName := "A" }] "zz" = .ok (c, true) ∧
      c ∈ [({ RealName := "b", FriendlyName := "B" } : Choice),
           { RealName := "a", FriendlyName := "A" }] ∧
      ∀ d ∈ [({ RealName := "b", FriendlyName := "B" } : Choice),
             { RealName := "a", FriendlyName := "A" }],
        c.RealName.data ≤ d.RealName.data :=
  c5_toggle_fallback_first _ (by decide) "zz" (by decide)

/-! ### Claim theorems: order independence of the toggle (C4) -/

/-- C4 counterexample: with two choices sharing the identifier `a` but
differing in label, the toggle's result depends on the enumeration order of
the choice set — the claim fails without a distinctness assumption on
identifiers. -/
theorem c4_order_independence_counterexample :
    toggleNext [{ RealName := "a", FriendlyName := "x" },
        { RealName := "a", FriendlyName := "y" }] "z" =
      .ok ({ RealName := "a", FriendlyName := "x" }, true) ∧
    toggleNext [{ RealName := "a", FriendlyName := "y" },
        { RealName := "a", FriendlyName := "x" }] "z" =
      .ok ({ RealName := "a", FriendlyName := "y" }, true) ∧
    List.Perm
      [({ RealName := "a", FriendlyName := "y" } : Choice),
        { RealName := "a", FriendlyName := "x" }]
      [{ RealName := "a", FriendlyName := "x" },
        { RealName := "a", FriendlyName := "y" }] ∧
    ({ RealName := "a", FriendlyName := "x" } : Choice) ≠
      { RealName := "a", FriendlyName := "y" } :=
  ⟨rfl, rfl, by decide, by decide⟩

/-- C4 amended: for choice sets with pairwise-distinct identifiers, the
toggle's result is the same for every permutation of the input choice set;
the engine works on a copy of the choices sorted ascending by device
identifier (a sorted permutation of the input). -/
theorem c4_order_independence (l l2 : List Choice)
    (hnd : (l.map Choice.RealName).Nodup) (hp : l2.Perm l) (current : String) :
    toggleNext l2 current = toggleNext l current ∧
    List.Sorted chLE (sortChoices l) ∧ (sortChoices l).Perm l := by
  have hnd2 : (l2.map Choice.RealName).Nodup :=
    ((hp.map Choice.RealName).symm).nodup hnd
  have hperm : (sortChoices l2).Perm (sortChoices l) :=
    (sortChoices_perm l2).trans (hp.trans (sortChoices_perm l).symm)
  have heq : sortChoices l2 = sortChoices l :=
    List.eq_of_perm_of_sorted hperm (sortChoices_sorted_lt hnd2)
      (sortChoices_sorted_lt hnd)
  refine ⟨?_, sortChoices_sorted l, sortChoices_perm l⟩
  by_cases hl : l.length = 0
  · have hl2 : l2.length = 0 := by rw [hp.length_eq, hl]
    simp [toggleNext, hl, hl2]
  · have hl2 : ¬ l2.length = 0 := by rw [hp.length_eq]; exact hl
    rw [toggleNext_eq l current hl, toggleNext_eq l2 current hl2, heq]

/-- Witness for C4 amended at a concrete permutation. -/
theorem c4_order_independence_witness :
    toggleNext [{ RealName := "a", FriendlyName := "A" },
        { RealName := "b", FriendlyName := "B" }] "a" =
      toggleNext [{ RealName := "b", FriendlyName := "B" },
        { RealName := "a", FriendlyName := "A" }] "a" :=
  (c4_order_independence _ _ (by decide) (by decide) "a").1

/-! ### Lemmas for the toggle cycle (C1) -/

lemma get_congr_idx {α : Type} (l : List α) {i j : Nat} (hij : i = j)
    (hi : i < l.length) (hj : j < l.length) :
    l.get ⟨i, hi⟩ = l.get ⟨j, hj⟩ := by
  subst hij
  rfl

lemma findIdx?_realName_get {l : List Choice}
    (hnd : (l.map Choice.RealName).Nodup) {i : Nat} (h : i < l.length) :
    l.findIdx? (fun c => c.RealName == (l.get ⟨i, h⟩).RealName) = some i := by
  induction l generalizing i with
  | nil => exact absurd h (Nat.not_lt_zero i)
  | cons a t ih =>
    have hnd2 : a.RealName ∉ t.map Choice.RealName ∧ (t.map Choice.RealName).Nodup := by
      rw [← List.nodup_cons]
      simpa using hnd
    rcases i with _ | j
    · simp [List.findIdx?_cons]
    · have hj : j < t.length := Nat.lt_of_succ_lt_succ h
      have hgt : (a :: t).get ⟨j + 1, h⟩ = t.get ⟨j, hj⟩ := List.get_cons_succ
      have hmem : (t.get ⟨j, hj⟩).RealName ∈ t.map Choice.RealName :=
        List.mem_map_of_mem Choice.RealName (List.get_mem t j hj)
      have hne : ¬ (a.RealName == ((a :: t).get ⟨j + 1, h⟩).RealName) = true := by
        rw [hgt]
        simp only [beq_iff_eq]
        intro heq
        exact hnd2.1 (heq ▸ hmem)
      rw [List.findIdx?_cons, if_neg hne, List.findIdx?_succ, hgt, ih hnd2.2 hj]
      rfl

lemma toggleNext_get {l : List Choice} (hnd : (l.map Choice.RealName).Nodup)
    {i : Nat} (h : i < (sortChoices l).length) :
    toggleNext l ((sortChoices l).get ⟨i, h⟩).RealName =
      .ok ((sortChoices l).get
        ⟨(i + 1) % (sortChoices l).length,
          Nat.mod_lt _ (Nat.lt_of_le_of_lt (Nat.zero_le i) h)⟩, true) := by
  have hlen : ¬ l.length = 0 := by
    intro h0
    rw [sortChoices_length, h0] at h
    exact Nat.not_lt_zero i h
  have hmod : (i + 1) % (sortChoices l).length < (sortChoices l).length :=
    Nat.mod_lt _ (Nat.lt_of_le_of_lt (Nat.zero_le i) h)
  rw [toggleNext_eq _ _ hlen, findIdx?_realName_get (sortChoices_map_nodup hnd) h]
  rw [List.getD_eq_get _ _ hmod]

lemma toggleSeq_get {l : List Choice} (hnd : (l.map Choice.RealName).Nodup)
    {i0 : Nat} (h : i0 < (sortChoices l).length) :
    ∀ k, toggleSeq l ((sortChoices l).get ⟨i0, h⟩).RealName k =
      some ((sortChoices l).get
        ⟨(i0 + k) % (sortChoices l).length,
          Nat.mod_lt _ (Nat.lt_of_le_of_lt (Nat.zero_le i0) h)⟩).RealName := by
  intro k
  induction k with
  | zero =>
    simp [toggleSeq, Nat.mod_eq_of_lt h]
  | succ k ih =>
    have hk : (i0 + k) % (sortChoices l).length < (sortChoices l).length :=
      Nat.mod_lt _ (Nat.lt_of_le_of_lt (Nat.zero_le i0) h)
    have hidx : ((i0 + k) % (sortChoices l).length + 1) % (sortChoices l).length =
        (i0 + (k + 1)) % (sortChoices l).length := by
      rw [Nat.mod_add_mod, ← Nat.add_assoc]
    have hstep := toggleNext_get hnd hk
    simp only [toggleSeq, ih, hstep]
    exact congrArg (fun c => some c.RealName)
      (get_congr_idx (sortChoices l) hidx _ _)

/-! ### Claim theorem: the toggle cycle (C1) -/

/-- C1: for a non-empty choice set with pairwise-distinct identifiers,
iterating `toggleNext` (feeding the selected identifier back each time) from
any identifier present in the set returns to the starting identifier on the
`n`-th application, and the `n` visited identifiers are a permutation of the
set's identifiers — each is visited exactly once. -/
theorem c1_toggle_cycle (l : List Choice) (_hne : l ≠ [])
    (hnd : (l.map Choice.RealName).Nodup) (start : String)
    (hstart : start ∈ l.map Choice.RealName) :
    toggleSeq l start l.length = some start ∧
    ((List.range l.length).map (fun k => toggleSeq l start (k + 1))).Perm
      ((l.map Choice.RealName).map some) := by
  have hsl : (sortChoices l).length = l.length := sortChoices_length l
  have hstart2 : start ∈ (sortChoices l).map Choice.RealName :=
    (((sortChoices_perm l).map Choice.RealName).mem_iff).mpr hstart
  rcases List.mem_map.mp hstart2 with ⟨c, hcs, hcr⟩
  rcases List.get_of_mem hcs with ⟨⟨i0, h0⟩, hgi⟩
  have hstart3 : start = ((sortChoices l).get ⟨i0, h0⟩).RealName := by
    rw [hgi, hcr]
  subst hstart3
  constructor
  · rw [toggleSeq_get hnd h0 l.length]
    have hidx : (i0 + l.length) % (sortChoices l).length = i0 := by
      rw [← hsl, Nat.add_mod_right, Nat.mod_eq_of_lt h0]
    simp [hidx]
  · set M := ((sortChoices l).map Choice.RealName).map some with hM
    have hMlen : M.length = (sortChoices l).length := by simp [hM]
    have hrot : (List.range l.length).map
        (fun k => toggleSeq l ((sortChoices l).get ⟨i0, h0⟩).RealName (k + 1)) =
        M.rotate (i0 + 1) := by
      apply List.ext_get
      · simp [hM, List.length_rotate, hsl]
      · intro n h1 h2
        rw [List.get_map, List.get_range, toggleSeq_get hnd h0 (n + 1),
          List.get_rotate, List.get_map, List.get_map]
        have hpos : 0 < (sortChoices l).length :=
          Nat.lt_of_le_of_lt (Nat.zero_le i0) h0
        have hidx2 : (i0 + (n + 1)) % (sortChoices l).length =
            (n + (i0 + 1)) % M.length := by
          rw [hMlen]
          congr 1
          omega
        have hbi : (i0 + (n + 1)) % (sortChoices l).length < (sortChoices l).length :=
          Nat.mod_lt _ hpos
        exact congrArg (fun c => some c.RealName)
          (get_congr_idx (sortChoices l) hidx2 hbi (hidx2 ▸ hbi))
    rw [hrot]
    exact (List.rotate_perm M (i0 + 1)).trans
      ((((sortChoices_perm l).map Choice.RealName).map some))

/-- Witness for C1 on a two-element choice set: two applications starting at
`a` visit `b` then `a`, a permutation of the identifiers, and return to the
start. -/
theorem c1_toggle_cycle_witness :
    toggleSeq [{ RealName := "b", FriendlyName := "B" },
        { RealName := "a", FriendlyName := "A" }] "a" 2 = some "a" ∧
    ((List.range 2).map (fun k => toggleSeq
        [{ RealName := "b", FriendlyName := "B" },
         { RealName := "a", FriendlyName := "A" }] "a" (k + 1))).Perm
      (([({ RealName := "b", FriendlyName := "B" } : Choice),
         { RealName := "a", FriendlyName := "A" }].map Choice.RealName).map some) :=
  c1_toggle_cycle _ (by decide) (by decide) "a" (by decide)

end Audiout
